import Mathlib

/-!
Verification development for the Nexodify perizia frontend.

The definitions below are shallow embeddings of the JavaScript source under
`frontend/src/`: DOM and network effects are made explicit as traces of
events, JavaScript values flowing through the untyped rendering code are
modelled by an inductive `JsVal` type, and operations that can raise a
`TypeError` at runtime (property access on `null`/`undefined`, calling a
string method on a non-string) return `Except JsErr _`.
-/

namespace Nexodify

/-! ## Blob model and `downloadPdfBlob` (frontend/src/utils/pdfDownload.js)

A `Blob` is modelled by its concatenated content together with its MIME
type; `new Blob([x], \x7b type: t \x7d)` concatenates the parts (here always a
single part) and stamps the given type. -/

structure Blob where
  content : String
  type : String
deriving Repr, DecidableEq

/-- The argument of `downloadPdfBlob`: either a real `Blob` instance
(`blobData instanceof Blob`) or any other value, modelled by the raw
string the `Blob` constructor would serialise it to. -/
inductive BlobData where
  | blob (b : Blob)
  | raw (s : String)
deriving Repr, DecidableEq

/-- One DOM/browser effect performed by `downloadPdfBlob`, in order. -/
inductive DomEvent where
  | createObjectURL (b : Blob)
  | setHref (url : String)
  | setAttribute (name value : String)
  | appendChild
  | click
  | remove
  | revokeObjectURL (url : String)
deriving Repr, DecidableEq

/-- `const sourceBlob = blobData instanceof Blob ? blobData : new Blob([blobData], \x7b type: 'application/pdf' \x7d);` -/
def sourceBlobOf (blobData : BlobData) : Blob :=
  match blobData with
  | .blob b => b
  | .raw s => Blob.mk s "application/pdf"

/-- `const pdfBlob = sourceBlob.type === 'application/pdf' ? sourceBlob : new Blob([sourceBlob], \x7b type: 'application/pdf' \x7d);` -/
def pdfBlobOf (blobData : BlobData) : Blob :=
  let sourceBlob := sourceBlobOf blobData
  if sourceBlob.type = "application/pdf" then sourceBlob
  else Blob.mk sourceBlob.content "application/pdf"

/-- Shallow embedding of `downloadPdfBlob` from
`frontend/src/utils/pdfDownload.js`, returning the trace of DOM effects.
`mkUrl` stands for the browser's `window.URL.createObjectURL`. -/
def downloadPdfBlob (mkUrl : Blob → String) (blobData : BlobData) (analysisId : String) : List DomEvent :=
  let pdfBlob := pdfBlobOf blobData
  let url := mkUrl pdfBlob
  [ DomEvent.createObjectURL pdfBlob,
    DomEvent.setHref url,
    DomEvent.setAttribute "download" ("nexodify_report_" ++ analysisId ++ ".pdf"),
    DomEvent.appendChild,
    DomEvent.click,
    DomEvent.remove,
    DomEvent.revokeObjectURL url ]

/-- The blob handed to `createObjectURL` in the trace, if any. -/
def createdBlob (trace : List DomEvent) : Option Blob :=
  match trace with
  | DomEvent.createObjectURL b :: _ => some b
  | _ => none

/-- The value passed with `setAttribute('download', _)` in the trace, if any. -/
def downloadAttr (trace : List DomEvent) : Option String :=
  (trace.filterMap (fun e =>
    match e with
    | DomEvent.setAttribute "download" v => some v
    | _ => none)).head?

def countClicks (trace : List DomEvent) : Nat :=
  (trace.filter (fun e => e = DomEvent.click)).length

/-- C1: for every input passed to `downloadPdfBlob` (a `Blob` of any MIME type
or a non-Blob value), the blob handed to `window.URL.createObjectURL` has type
`application/pdf`. -/
theorem C1_downloadPdfBlob_always_pdf_type (mkUrl : Blob → String) (blobData : BlobData) (analysisId : String) :
    ∃ b, createdBlob (downloadPdfBlob mkUrl blobData analysisId) = some b ∧ b.type = "application/pdf" := by
  refine ⟨pdfBlobOf blobData, rfl, ?_⟩
  unfold pdfBlobOf
  by_cases h : (sourceBlobOf blobData).type = "application/pdf"
  · simp [h]
  · simp [h]

/-- C2: for every `analysisId`, `downloadPdfBlob` sets the anchor's `download`
attribute to exactly `nexodify_report_` ++ analysisId ++ `.pdf`. -/
theorem C2_downloadPdfBlob_filename (mkUrl : Blob → String) (blobData : BlobData) (analysisId : String) :
    downloadAttr (downloadPdfBlob mkUrl blobData analysisId)
      = some ("nexodify_report_" ++ analysisId ++ ".pdf") := by
  rfl

/-- C3: on the input `Blob(['%PDF-1.7 test'], \x7btype:'application/octet-stream'\x7d)`
with id `analysis_abc123`, the effect trace of `downloadPdfBlob` contains exactly
one anchor click, sets the download attribute to
`nexodify_report_analysis_abc123.pdf`, and calls `revokeObjectURL` on the URL
created for the (re-typed) blob strictly after the click. -/
theorem C3_downloadPdfBlob_scenario (mkUrl : Blob → String) :
    let tr := downloadPdfBlob mkUrl
      (BlobData.blob (Blob.mk "%PDF-1.7 test" "application/octet-stream")) "analysis_abc123"
    countClicks tr = 1 ∧
    downloadAttr tr = some "nexodify_report_analysis_abc123.pdf" ∧
    ∃ i j, i < j ∧
      tr.get? i = some DomEvent.click ∧
      tr.get? j = some (DomEvent.revokeObjectURL
        (mkUrl (Blob.mk "%PDF-1.7 test" "application/pdf"))) := by
  refine ⟨rfl, rfl, 4, 6, by omega, rfl, rfl⟩

/-! ## Untyped JavaScript values

The rendering code consumes attacker/LLM-controlled JSON, so values are
modelled by `JsVal` (JSON values plus `undefined`, which property access on
a missing key produces). Numbers are modelled by `Int`: no claim depends on
fractional or IEEE behaviour. Operations that raise a `TypeError` in
JavaScript return `Except JsErr _`. -/

inductive JsVal where
  | null
  | undefined
  | bool (b : Bool)
  | num (n : Int)
  | str (s : String)
  | arr (elems : List JsVal)
  | obj (fields : List (String × JsVal))

inductive JsErr where
  | typeError
deriving Repr, DecidableEq

/-- JavaScript truthiness (`NaN` is not representable in this model). -/
def truthy : JsVal → Bool
  | .null => false
  | .undefined => false
  | .bool b => b
  | .num n => n != 0
  | .str s => s != ""
  | .arr _ => true
  | .obj _ => true

/-- First binding wins; JSON-decoded objects have no duplicate keys. -/
def lookupField : List (String × JsVal) → String → Option JsVal
  | [], _ => none
  | (k, v) :: rest, key => if k = key then some v else lookupField rest key

theorem lookupField_sizeOf (key : String) (v : JsVal) :
    ∀ fs : List (String × JsVal), lookupField fs key = some v → sizeOf v < sizeOf fs := by
  intro fs
  induction fs with
  | nil => intro h; simp [lookupField] at h
  | cons p rest ih =>
    intro h
    obtain ⟨k, w⟩ := p
    by_cases hk : k = key
    · subst hk
      simp [lookupField] at h
      subst h
      simp
      omega
    · simp only [lookupField, if_neg hk] at h
      have := ih h
      simp
      omega

/-- Property access as in `v[k]`: throws a `TypeError` on `null`/`undefined`,
yields `undefined` on primitives and missing keys. -/
def jsGetE (v : JsVal) (k : String) : Except JsErr JsVal :=
  match v with
  | .null => .error .typeError
  | .undefined => .error .typeError
  | .obj fs => .ok ((lookupField fs k).getD .undefined)
  | _ => .ok .undefined

/-- Optional-chaining access `v?.[k]`: `undefined` instead of a `TypeError`. -/
def jsGetOpt (v : JsVal) (k : String) : JsVal :=
  match v with
  | .obj fs => (lookupField fs k).getD .undefined
  | _ => .undefined

/-- `a || b` on JavaScript values. -/
def jsOrVal (a b : JsVal) : JsVal := if truthy a then a else b

def joinSep (sep : String) : List String → String
  | [] => ""
  | [x] => x
  | x :: y :: rest => x ++ sep ++ joinSep sep (y :: rest)

def escapeJson (s : String) : String :=
  String.mk (s.toList.foldr
    (fun c acc =>
      if c = '"' then '\\' :: '"' :: acc
      else if c = '\\' then '\\' :: '\\' :: acc
      else c :: acc) [])

/-- Shallow embedding of `JSON.stringify` (control-character escapes are not
modelled; no claim exercises them). `undefined` only occurs inside arrays here,
where `JSON.stringify` renders it as `null`. -/
def jsonStringify (v : JsVal) : String :=
  match v with
  | .null => "null"
  | .undefined => "null"
  | .bool b => if b then "true" else "false"
  | .num n => toString n
  | .str s => "\"" ++ escapeJson s ++ "\""
  | .arr elems => "[" ++ joinSep "," (elems.attach.map (fun p => jsonStringify p.1)) ++ "]"
  | .obj fields =>
      "\x7b" ++
        joinSep "," (fields.attach.map
          (fun p => "\"" ++ escapeJson p.1.1 ++ "\":" ++ jsonStringify p.1.2)) ++
      "\x7d"
termination_by sizeOf v
decreasing_by
  all_goals simp_wf
  · have := List.sizeOf_lt_of_mem p.2
    omega
  · have h1 := List.sizeOf_lt_of_mem p.2
    obtain ⟨⟨k, w⟩, hp⟩ := p
    simp only [Prod.mk.sizeOf_spec] at h1 ⊢
    omega

/-- Conversion `String(v)` as used by template literals and
`Array.prototype.toString`. Inside a nested array, `null`/`undefined`
elements would render as empty strings in JavaScript; that case is not
exercised by any claim (joined page lists are filtered to truthy values
first) and is not special-cased here. -/
def jsToString (v : JsVal) : String :=
  match v with
  | .null => "null"
  | .undefined => "undefined"
  | .bool b => if b then "true" else "false"
  | .num n => toString n
  | .str s => s
  | .arr elems => joinSep "," (elems.attach.map (fun p => jsToString p.1))
  | .obj _ => "[object Object]"
termination_by sizeOf v
decreasing_by
  all_goals simp_wf
  have := List.sizeOf_lt_of_mem p.2
  omega

/-- Element rendering inside `join`: `null`/`undefined` become empty. -/
def joinElemString (v : JsVal) : String :=
  match v with
  | .null => ""
  | .undefined => ""
  | w => jsToString w

/-- Lookup returning the value only when it is truthy, as a JavaScript
`if (value.key)` guard observes it. -/
def truthyLookup (fs : List (String × JsVal)) (k : String) : Option JsVal :=
  match lookupField fs k with
  | some v => if truthy v then some v else none
  | none => none

theorem truthyLookup_sizeOf (fs : List (String × JsVal)) (k : String) (v : JsVal)
    (h : truthyLookup fs k = some v) : sizeOf v < sizeOf fs := by
  unfold truthyLookup at h
  cases hl : lookupField fs k with
  | none => rw [hl] at h; cases h
  | some w =>
    rw [hl] at h
    by_cases ht : truthy w
    · simp [ht] at h
      subst h
      exact lookupField_sizeOf k _ fs hl
    · simp [ht] at h

/-- Shallow embedding of `safeRender` from
`frontend/src/pages/AnalysisResult.js`. JSON-decoded objects never contain
`undefined` members, so the presence test `value.value !== undefined`
coincides with `lookupField fields "value" = some _`. The source's trailing
`return String(value) || fallback` is unreachable (every `typeof` outcome a
`JsVal` can take is handled above it) and is omitted. The default for the
`fallback` parameter in the source is `'N/A'`; callers below pass it
explicitly. -/
def safeRender (value : JsVal) (fallback : String) : String :=
  match value with
  | .null => fallback
  | .undefined => fallback
  | .str s => if s != "" then s else fallback
  | .num n => toString n
  | .bool b => if b then "Sì" else "No"
  | .arr elems =>
    match elems with
    | [] => fallback
    | e :: es =>
      let joined := joinSep ", "
        (((e :: es).attach.map (fun p => safeRender p.1 "")).filter (fun s => s != ""))
      if joined != "" then joined else fallback
  | .obj fields =>
    match h : lookupField fields "value" with
    | some v => safeRender v fallback
    | none =>
      match h : truthyLookup fields "status" with
      | some v => safeRender v fallback
      | none =>
        match h : truthyLookup fields "formatted" with
        | some v => safeRender v fallback
        | none =>
          match h : truthyLookup fields "label_it" with
          | some v => safeRender v fallback
          | none =>
            match h : truthyLookup fields "full" with
            | some v => safeRender v fallback
            | none => fallback
termination_by sizeOf value
decreasing_by
  all_goals simp_wf
  · have := List.sizeOf_lt_of_mem p.2
    simp only [List.cons.sizeOf_spec] at this ⊢
    omega
  · have := lookupField_sizeOf "value" v fields h
    omega
  · have := truthyLookup_sizeOf fields "status" v h
    omega
  · have := truthyLookup_sizeOf fields "formatted" v h
    omega
  · have := truthyLookup_sizeOf fields "label_it" v h
    omega
  · have := truthyLookup_sizeOf fields "full" v h
    omega

/-! ## Evidence components (frontend/src/components/EvidenceDisplay.js) -/

/-- Equality as observed by `new Set(...)` (SameValueZero). JSON-decoded
objects and arrays are fresh references, so two of them are never equal. -/
def primSameValue (a b : JsVal) : Bool :=
  match a, b with
  | .null, .null => true
  | .undefined, .undefined => true
  | .bool x, .bool y => x == y
  | .num x, .num y => x == y
  | .str x, .str y => x == y
  | _, _ => false

def dedupeAux (seen : List JsVal) : List JsVal → List JsVal
  | [] => []
  | x :: xs =>
    if seen.any (fun y => primSameValue y x) then dedupeAux seen xs
    else x :: dedupeAux (x :: seen) xs

/-- Insertion-order deduplication, as `[...new Set(l)]` produces. -/
def dedupeJs (l : List JsVal) : List JsVal := dedupeAux [] l

/-- JavaScript `ToNumber` restricted to what the sort comparator `a - b` can
meet here; `none` stands for `NaN`. String parsing is modelled for integer
literals only and `ToPrimitive` on objects/arrays is not modelled (no claim
depends on the resulting order). -/
def toNumber : JsVal → Option Int
  | .num n => some n
  | .bool b => some (if b then 1 else 0)
  | .null => some 0
  | .str s => s.toInt?
  | _ => none

def jsLe (a b : JsVal) : Bool :=
  match toNumber a, toNumber b with
  | some x, some y => decide (x ≤ y)
  | _, _ => true

def insertAsc (x : JsVal) : List JsVal → List JsVal
  | [] => [x]
  | y :: ys => if jsLe y x then y :: insertAsc x ys else x :: y :: ys

/-- Stable ascending sort modelling `.sort((a, b) => a - b)`; comparator
results involving `NaN` keep the relative order. -/
def sortPages : List JsVal → List JsVal
  | [] => []
  | x :: xs => insertAsc x (sortPages xs)

/-- `elems.map(e => e[k])`: each element access can throw on `null`. -/
def mapField (k : String) : List JsVal → Except JsErr (List JsVal)
  | [] => .ok []
  | e :: es => do
    let v ← jsGetE e k
    let rest ← mapField k es
    .ok (v :: rest)

/-- `[...new Set(evidence.map(e => e.page).filter(Boolean))].sort((a, b) => a - b)` -/
def pagesOf (elems : List JsVal) : Except JsErr (List JsVal) := do
  let raw ← mapField "page" elems
  .ok (sortPages (dedupeJs (raw.filter truthy)))

/-- Decomposition of the guard
`!evidence || !Array.isArray(evidence) || evidence.length === 0`: it fails
(yielding `some (head, tail)`) exactly for a non-empty array (arrays are
always truthy, so the `!evidence` test never fires for them). -/
def evidenceElems (evidence : JsVal) : Option (JsVal × List JsVal) :=
  match evidence with
  | .arr (e :: es) => some (e, es)
  | _ => none

inductive BadgeRender where
  | notFound
  | pageBadge (txt : String)

/-- Shallow embedding of `EvidenceBadge`: either the
`Non trovato nel documento` indicator or the `Pag. ...` page badge. -/
def EvidenceBadge (evidence : JsVal) : Except JsErr BadgeRender :=
  match evidenceElems evidence with
  | none => .ok .notFound
  | some (e, es) => do
    let pages ← pagesOf (e :: es)
    .ok (.pageBadge ("Pag. " ++ joinSep ", " (pages.map joinElemString)))

structure DetailEntry where
  page : Option JsVal
  anchor : Option JsVal
  quote : Option JsVal

/-- Rendering of one evidence entry: each field is shown iff truthy; the
three accesses `e.page`, `e.anchor`, `e.quote` throw on a `null` entry. -/
def detailEntryOf (e : JsVal) : Except JsErr DetailEntry := do
  let p ← jsGetE e "page"
  let a ← jsGetE e "anchor"
  let q ← jsGetE e "quote"
  .ok ⟨if truthy p then some p else none,
       if truthy a then some a else none,
       if truthy q then some q else none⟩

def detailEntriesOf : List JsVal → Except JsErr (List DetailEntry)
  | [] => .ok []
  | e :: es => do
    let d ← detailEntryOf e
    let rest ← detailEntriesOf es
    .ok (d :: rest)

inductive DetailRender where
  | nothing
  | entries (es : List DetailEntry)

/-- Shallow embedding of `EvidenceDetail`: `null` for absent evidence,
otherwise one quoted entry per element. -/
def EvidenceDetail (evidence : JsVal) : Except JsErr DetailRender :=
  match evidenceElems evidence with
  | none => .ok .nothing
  | some (e, es) => do
    let ds ← detailEntriesOf (e :: es)
    .ok (.entries ds)

/-- `const displayValue = value === null || value === undefined || value === '' ? 'N/A' : typeof value === 'object' ? (value.value || value.formatted || value.status || JSON.stringify(value)) : String(value);`
(arrays also have `typeof _ === 'object'` and fall into the object branch,
where their absent properties send them to `JSON.stringify`). -/
def displayValueOf (value : JsVal) : JsVal :=
  match value with
  | .null => .str "N/A"
  | .undefined => .str "N/A"
  | .str s => if s = "" then .str "N/A" else .str s
  | .num n => .str (toString n)
  | .bool b => .str (if b then "true" else "false")
  | .obj fs =>
      jsOrVal (jsGetOpt (.obj fs) "value")
        (jsOrVal (jsGetOpt (.obj fs) "formatted")
          (jsOrVal (jsGetOpt (.obj fs) "status")
            (.str (jsonStringify (.obj fs)))))
  | .arr es =>
      jsOrVal (jsGetOpt (.arr es) "value")
        (jsOrVal (jsGetOpt (.arr es) "formatted")
          (jsOrVal (jsGetOpt (.arr es) "status")
            (.str (jsonStringify (.arr es)))))

structure DVRender where
  label : JsVal
  displayValue : JsVal
  pagesBadge : Option String
  quoteLine : Option String

/-- Shallow embedding of `DataValueWithEvidence`. The quote line renders
`evidence[0]?.quote.substring(0, 150)` plus an ellipsis for quotes longer
than 150; `.substring` on a truthy non-string quote throws a `TypeError`
(string indices are modelled at character rather than UTF-16 granularity). -/
def DataValueWithEvidence (label value evidence : JsVal) : Except JsErr DVRender :=
  let displayValue := displayValueOf value
  match evidenceElems evidence with
  | none => .ok ⟨label, displayValue, none, none⟩
  | some (e0, rest) => do
    let pages ← pagesOf (e0 :: rest)
    let badge := "p. " ++ joinSep ", " (pages.map joinElemString)
    let q := jsGetOpt e0 "quote"
    let quoteLine ←
      if truthy q then
        match q with
        | .str s =>
            Except.ok (some ("\"" ++ (s.take 150) ++
              (if s.length > 150 then "..." else "") ++ "\""))
        | _ => Except.error JsErr.typeError
      else Except.ok none
    .ok ⟨label, displayValue, some badge, quoteLine⟩

/-! ## Conditions under which the evidence components cannot throw -/

/-- Property access on an element throws exactly when it is `null` (or
`undefined`, which JSON cannot produce). -/
def nonNullElem : JsVal → Bool
  | .null => false
  | .undefined => false
  | _ => true

/-- The first evidence entry's `quote`, when truthy, must be a string for
`.substring` to exist. -/
def quoteOkHead (e0 : JsVal) : Bool :=
  if truthy (jsGetOpt e0 "quote") then
    match jsGetOpt e0 "quote" with
    | .str _ => true
    | _ => false
  else true

/-- Well-shapedness of an `evidence` prop: whenever it is a non-empty array,
every element is non-`null` and the head's quote is a string when truthy. -/
def goodEvidence (evidence : JsVal) : Bool :=
  match evidenceElems evidence with
  | none => true
  | some (e0, rest) => ((e0 :: rest).all nonNullElem) && quoteOkHead e0

theorem jsGetE_ok (e : JsVal) (k : String) (h : nonNullElem e = true) :
    ∃ v, jsGetE e k = Except.ok v := by
  cases e with
  | null => simp [nonNullElem] at h
  | undefined => simp [nonNullElem] at h
  | bool b => exact ⟨_, rfl⟩
  | num n => exact ⟨_, rfl⟩
  | str s => exact ⟨_, rfl⟩
  | arr es => exact ⟨_, rfl⟩
  | obj fs => exact ⟨_, rfl⟩

theorem mapField_ok (k : String) :
    ∀ l : List JsVal, l.all nonNullElem = true → ∃ vs, mapField k l = Except.ok vs := by
  intro l
  induction l with
  | nil => exact fun _ => ⟨[], rfl⟩
  | cons e es ih =>
    intro h
    simp only [List.all_cons, Bool.and_eq_true] at h
    obtain ⟨vs, hvs⟩ := ih h.2
    obtain ⟨v, hv⟩ := jsGetE_ok e k h.1
    refine ⟨v :: vs, ?_⟩
    simp only [mapField, hv, hvs]
    rfl

theorem pagesOf_ok (l : List JsVal) (h : l.all nonNullElem = true) :
    ∃ ps, pagesOf l = Except.ok ps := by
  obtain ⟨vs, hvs⟩ := mapField_ok "page" l h
  refine ⟨sortPages (dedupeJs (vs.filter truthy)), ?_⟩
  simp only [pagesOf, hvs]
  rfl

theorem detailEntryOf_ok (e : JsVal) (h : nonNullElem e = true) :
    ∃ d, detailEntryOf e = Except.ok d := by
  cases e with
  | null => simp [nonNullElem] at h
  | undefined => simp [nonNullElem] at h
  | bool b => exact ⟨_, rfl⟩
  | num n => exact ⟨_, rfl⟩
  | str s => exact ⟨_, rfl⟩
  | arr es => exact ⟨_, rfl⟩
  | obj fs => exact ⟨_, rfl⟩

theorem detailEntriesOf_ok :
    ∀ l : List JsVal, l.all nonNullElem = true → ∃ ds, detailEntriesOf l = Except.ok ds := by
  intro l
  induction l with
  | nil => exact fun _ => ⟨[], rfl⟩
  | cons e es ih =>
    intro h
    simp only [List.all_cons, Bool.and_eq_true] at h
    obtain ⟨ds, hds⟩ := ih h.2
    obtain ⟨d, hd⟩ := detailEntryOf_ok e h.1
    refine ⟨d :: ds, ?_⟩
    simp only [detailEntriesOf, hd, hds]
    rfl

theorem quoteOkHead_str (e0 : JsVal) (hq : quoteOkHead e0 = true)
    (ht : truthy (jsGetOpt e0 "quote") = true) :
    ∃ s, jsGetOpt e0 "quote" = JsVal.str s := by
  unfold quoteOkHead at hq
  rw [if_pos ht] at hq
  revert hq
  cases jsGetOpt e0 "quote" with
  | str s => exact fun _ => ⟨s, rfl⟩
  | null => intro hq; simp at hq
  | undefined => intro hq; simp at hq
  | bool b => intro hq; simp at hq
  | num n => intro hq; simp at hq
  | arr es => intro hq; simp at hq
  | obj gs => intro hq; simp at hq

theorem EvidenceBadge_ok (evidence : JsVal) (h : goodEvidence evidence = true) :
    ∃ r, EvidenceBadge evidence = Except.ok r := by
  unfold EvidenceBadge
  cases hev : evidenceElems evidence with
  | none => exact ⟨_, rfl⟩
  | some pr =>
    obtain ⟨e0, rest⟩ := pr
    unfold goodEvidence at h
    rw [hev] at h
    simp only [Bool.and_eq_true] at h
    obtain ⟨ps, hps⟩ := pagesOf_ok _ h.1
    exact ⟨_, by simp only [hps]; rfl⟩

theorem EvidenceDetail_ok (evidence : JsVal) (h : goodEvidence evidence = true) :
    ∃ r, EvidenceDetail evidence = Except.ok r := by
  unfold EvidenceDetail
  cases hev : evidenceElems evidence with
  | none => exact ⟨_, rfl⟩
  | some pr =>
    obtain ⟨e0, rest⟩ := pr
    unfold goodEvidence at h
    rw [hev] at h
    simp only [Bool.and_eq_true] at h
    obtain ⟨ds, hds⟩ := detailEntriesOf_ok _ h.1
    exact ⟨_, by simp only [hds]; rfl⟩

theorem DataValueWithEvidence_ok (label value evidence : JsVal)
    (h : goodEvidence evidence = true) :
    ∃ r, DataValueWithEvidence label value evidence = Except.ok r := by
  unfold DataValueWithEvidence
  cases hev : evidenceElems evidence with
  | none => exact ⟨_, rfl⟩
  | some pr =>
    obtain ⟨e0, rest⟩ := pr
    unfold goodEvidence at h
    rw [hev] at h
    simp only [Bool.and_eq_true, List.all_cons] at h
    obtain ⟨⟨h0, hall⟩, hq⟩ := h
    obtain ⟨ps, hps⟩ := pagesOf_ok (e0 :: rest) (by simp [List.all_cons, h0, hall])
    by_cases ht : truthy (jsGetOpt e0 "quote") = true
    · obtain ⟨s, hs⟩ := quoteOkHead_str e0 hq ht
      have hts : truthy (JsVal.str s) = true := by rw [← hs]; exact ht
      exact ⟨_, by simp only [hps, hs, hts]; rfl⟩
    · rw [Bool.not_eq_true] at ht
      exact ⟨_, by simp only [hps, ht]; rfl⟩

theorem exceptBindOk {α β : Type} (a : α) (f : α → Except JsErr β) :
    (Except.ok a >>= f) = f a := rfl

theorem exceptBindErr {β γ : Type} (e : JsErr) (f : γ → Except JsErr β) :
    ((Except.error e : Except JsErr γ) >>= f) = Except.error e := rfl

/-- C4 (amended): `safeRender` terminates without throwing on all untyped
JSON, substituting the fallback (`'N/A'` by default) for `null`/`undefined`;
`DataValueWithEvidence` displays the JSON-stringified form of an object none
of whose `value`/`formatted`/`status` properties is truthy; and the evidence
components (`EvidenceBadge`, `EvidenceDetail`, `DataValueWithEvidence`)
terminate without throwing whenever every element of the evidence array is
non-`null` and a truthy `quote` on its first element is a string. -/
theorem C4_rendering_defensive :
    (∀ fallback : String,
      safeRender JsVal.null fallback = fallback ∧
      safeRender JsVal.undefined fallback = fallback) ∧
    (∀ fs : List (String × JsVal),
      truthy (jsGetOpt (JsVal.obj fs) "value") = false →
      truthy (jsGetOpt (JsVal.obj fs) "formatted") = false →
      truthy (jsGetOpt (JsVal.obj fs) "status") = false →
      displayValueOf (JsVal.obj fs) = JsVal.str (jsonStringify (JsVal.obj fs))) ∧
    (∀ evidence : JsVal, goodEvidence evidence = true →
      (∃ r, EvidenceBadge evidence = Except.ok r) ∧
      (∃ r, EvidenceDetail evidence = Except.ok r) ∧
      ∀ label value : JsVal, ∃ r, DataValueWithEvidence label value evidence = Except.ok r) := by
  refine ⟨fun fallback => ⟨by simp [safeRender], by simp [safeRender]⟩, ?_, ?_⟩
  · intro fs h1 h2 h3
    simp only [displayValueOf, jsOrVal, h1, h2, h3]
    rfl
  · intro ev h
    exact ⟨EvidenceBadge_ok ev h, EvidenceDetail_ok ev h,
      fun label value => DataValueWithEvidence_ok label value ev h⟩

/-- Witness for C4: concrete instances discharging each hypothesis. -/
theorem C4_rendering_defensive_witness :
    safeRender JsVal.null "N/A" = "N/A" ∧
    displayValueOf (JsVal.obj [("foo", JsVal.num 7)]) =
      JsVal.str (jsonStringify (JsVal.obj [("foo", JsVal.num 7)])) ∧
    ∃ r, EvidenceBadge (JsVal.arr [JsVal.obj [("page", JsVal.num 3)]]) = Except.ok r :=
  ⟨(C4_rendering_defensive.1 "N/A").1,
   C4_rendering_defensive.2.1 [("foo", JsVal.num 7)] rfl rfl rfl,
   (C4_rendering_defensive.2.2 (JsVal.arr [JsVal.obj [("page", JsVal.num 3)]]) rfl).1⟩

/-- C4 counterexample: the untyped JSON evidence array `[null]` makes every
evidence component throw a `TypeError` (accessing `.page`), refuting
"terminate without throwing for every untyped JSON input". -/
theorem C4_counterexample_null_element_throws :
    EvidenceBadge (JsVal.arr [JsVal.null]) = Except.error JsErr.typeError ∧
    EvidenceDetail (JsVal.arr [JsVal.null]) = Except.error JsErr.typeError ∧
    DataValueWithEvidence JsVal.null (JsVal.str "x") (JsVal.arr [JsVal.null]) =
      Except.error JsErr.typeError :=
  ⟨rfl, rfl, rfl⟩

/-- C6 (amended): `EvidenceBadge` renders the `Non trovato nel documento`
indicator exactly when the evidence prop is falsy, not an array, or an empty
array; on a non-empty evidence array all of whose elements are non-`null` it
renders the `Pag. ...` badge listing the (truthy, deduplicated, sorted)
evidence pages. A `null` element makes it throw instead (see the
counterexample). -/
theorem C6_EvidenceBadge_cases (evidence : JsVal) :
    (EvidenceBadge evidence = Except.ok BadgeRender.notFound ↔
      evidenceElems evidence = none) ∧
    (∀ e0 rest, evidenceElems evidence = some (e0, rest) →
      (e0 :: rest).all nonNullElem = true →
      ∃ pages, pagesOf (e0 :: rest) = Except.ok pages ∧
        EvidenceBadge evidence = Except.ok
          (BadgeRender.pageBadge ("Pag. " ++ joinSep ", " (pages.map joinElemString)))) := by
  constructor
  · constructor
    · intro h
      cases hev : evidenceElems evidence with
      | none => rfl
      | some pr =>
        obtain ⟨e0, rest⟩ := pr
        exfalso
        unfold EvidenceBadge at h
        simp only [hev] at h
        cases hps : pagesOf (e0 :: rest) with
        | error e =>
          simp only [hps, exceptBindErr] at h
          cases h
        | ok ps =>
          simp only [hps, exceptBindOk] at h
          cases h
    · intro h
      unfold EvidenceBadge
      simp only [h]
  · intro e0 rest hev hall
    obtain ⟨ps, hps⟩ := pagesOf_ok _ hall
    refine ⟨ps, hps, ?_⟩
    unfold EvidenceBadge
    simp only [hev, hps, exceptBindOk]

/-- Witness for C6: the amended statement at concrete evidence. -/
theorem C6_EvidenceBadge_cases_witness :
    EvidenceBadge (JsVal.str "no-evidence") = Except.ok BadgeRender.notFound ∧
    ∃ pages,
      pagesOf [JsVal.obj [("page", JsVal.num 3)]] = Except.ok pages ∧
      EvidenceBadge (JsVal.arr [JsVal.obj [("page", JsVal.num 3)]]) = Except.ok
        (BadgeRender.pageBadge ("Pag. " ++ joinSep ", " (pages.map joinElemString))) :=
  ⟨((C6_EvidenceBadge_cases (JsVal.str "no-evidence")).1).2 rfl,
   (C6_EvidenceBadge_cases (JsVal.arr [JsVal.obj [("page", JsVal.num 3)]])).2
     (JsVal.obj [("page", JsVal.num 3)]) [] rfl rfl⟩

/-- C6 counterexample: the evidence array `[null]` is a non-empty array (the
guard does not fire), yet `EvidenceBadge` renders no page badge on it: it
throws instead. -/
theorem C6_counterexample_no_badge_on_null_element :
    evidenceElems (JsVal.arr [JsVal.null]) ≠ none ∧
    ∀ txt, EvidenceBadge (JsVal.arr [JsVal.null]) ≠ Except.ok (BadgeRender.pageBadge txt) := by
  constructor
  · intro h
    exact Option.noConfusion
      (show some (JsVal.null, ([] : List JsVal)) = (none : Option (JsVal × List JsVal)) from h)
  · intro txt h
    exact Except.noConfusion
      (show (Except.error JsErr.typeError : Except JsErr BadgeRender)
          = Except.ok (BadgeRender.pageBadge txt) from h)

/-! ## File validation (frontend/src/pages/NewAnalysis.js, `validateAndSetFile`) -/

structure JsFile where
  name : String
  type : String
  size : Nat

/-- Kernel-computable models of `String.prototype.toLowerCase` (ASCII; no
claim exercises locale-specific case mapping) and `String.prototype.endsWith`. -/
def strToLower (s : String) : String := String.mk (s.toList.map Char.toLower)

def strEndsWith (s suffix : String) : Bool := suffix.toList.isSuffixOf s.toList

/-- Component state touched by `validateAndSetFile`: the pending file
(`setFile`) and the error banner (`setError`). -/
structure NAState where
  file : Option JsFile
  error : Option String

/-- Shallow embedding of `validateAndSetFile`: early return when no file was
selected, then extension, MIME-type and size checks in source order. -/
def validateAndSetFile (selectedFile : Option JsFile) (st : NAState) : NAState :=
  match selectedFile with
  | none => st
  | some f =>
    if ! (strEndsWith (strToLower f.name) ".pdf") then
      { st with error := some "Solo file PDF sono accettati / Only PDF files are accepted" }
    else if f.type ≠ "application/pdf" then
      { st with error := some "Solo file PDF sono accettati / Only PDF files are accepted" }
    else if f.size > 50 * 1024 * 1024 then
      { st with error := some "File troppo grande. Massimo 50MB / File too large. Maximum 50MB" }
    else
      { st with file := some f }

/-- Acceptance condition stated by the claim: lowercased name ends in
`.pdf`, MIME type is exactly `application/pdf`, size at most 50 MiB. -/
def validFile (f : JsFile) : Prop :=
  strEndsWith (strToLower f.name) ".pdf" = true ∧
  f.type = "application/pdf" ∧
  f.size ≤ 50 * 1024 * 1024

instance (f : JsFile) : Decidable (validFile f) := by
  unfold validFile
  infer_instance

/-- C5: `validateAndSetFile` accepts a selected file (storing it as the
pending upload, leaving the error state alone) iff it satisfies the
extension/MIME/size checks; on any violation it stores an error message and
leaves the pending file unchanged. -/
theorem C5_validateAndSetFile_accepts_iff (f : JsFile) (st : NAState) :
    (validFile f → validateAndSetFile (some f) st = { st with file := some f }) ∧
    (¬ validFile f →
      (validateAndSetFile (some f) st).file = st.file ∧
      ∃ m, (validateAndSetFile (some f) st).error = some m) := by
  unfold validateAndSetFile
  by_cases h1 : strEndsWith (strToLower f.name) ".pdf" = true
  · by_cases h2 : f.type = "application/pdf"
    · by_cases h3 : f.size > 50 * 1024 * 1024
      · refine ⟨fun hv => absurd hv.2.2 (by omega), fun _ => ?_⟩
        simp [h1, h2, h3]
      · refine ⟨fun _ => ?_, fun hnv => absurd ⟨h1, h2, by omega⟩ hnv⟩
        simp [h1, h2, h3]
    · refine ⟨fun hv => absurd hv.2.1 h2, fun _ => ?_⟩
      simp [h1, h2]
  · refine ⟨fun hv => absurd hv.1 h1, fun _ => ?_⟩
    rw [Bool.not_eq_true] at h1
    simp [h1]

/-- Witness for C5: a valid PDF is accepted; a `.exe` is rejected with an
error message and an unchanged pending file. -/
theorem C5_validateAndSetFile_witness :
    validateAndSetFile (some (JsFile.mk "perizia.PDF" "application/pdf" 1024))
        (NAState.mk none none)
      = NAState.mk (some (JsFile.mk "perizia.PDF" "application/pdf" 1024)) none ∧
    (validateAndSetFile (some (JsFile.mk "malware.exe" "application/pdf" 1024))
        (NAState.mk none none)).file = none ∧
    ∃ m, (validateAndSetFile (some (JsFile.mk "malware.exe" "application/pdf" 1024))
        (NAState.mk none none)).error = some m :=
  ⟨(C5_validateAndSetFile_accepts_iff (JsFile.mk "perizia.PDF" "application/pdf" 1024)
      (NAState.mk none none)).1 (by decide),
   (C5_validateAndSetFile_accepts_iff (JsFile.mk "malware.exe" "application/pdf" 1024)
      (NAState.mk none none)).2 (by decide)⟩

/-! ## Upload error handling (frontend/src/pages/NewAnalysis.js, `handleUpload`) -/

inductive UploadEvent where
  | post
  | toastSuccess (msg : String)
  | toastError (msg : JsVal)
  | setError (msg : JsVal)
  | navigate (path : String)

/-- `err.response?.data?.detail` — the first access `err.response` is plain,
but the `catch` parameter is always a non-`null` `Error` object, on which
plain and optional access agree, so the whole chain is modelled with
optional access. -/
def detailOf (err : JsVal) : JsVal :=
  jsGetOpt (jsGetOpt (jsGetOpt err "response") "data") "detail"

/-- `err.response?.data?.detail?.message_it` -/
def messageItOf (err : JsVal) : JsVal := jsGetOpt (detailOf err) "message_it"

/-- `const errorMessage = err.response?.data?.detail?.message_it || err.response?.data?.detail || 'Errore durante l\x27analisi';` -/
def uploadErrorMessage (err : JsVal) : JsVal :=
  jsOrVal (messageItOf err)
    (jsOrVal (detailOf err) (JsVal.str "Errore durante l\x27analisi"))

/-- Outcome of the single `axios.post` issued by `handleUpload`. -/
inductive UploadOutcome where
  | success (analysisId : String)
  | failure (err : JsVal)

/-- Shallow embedding of `handleUpload` as the trace of its effects (the
progress-bar animation carries no claim-relevant state and is omitted). -/
def handleUpload (file : Option JsFile) (outcome : UploadOutcome) : List UploadEvent :=
  match file with
  | none => []
  | some _ =>
    match outcome with
    | .success analysisId =>
        [UploadEvent.post, UploadEvent.toastSuccess "Analisi completata!",
         UploadEvent.navigate ("/analysis/" ++ analysisId)]
    | .failure err =>
        [UploadEvent.post, UploadEvent.setError (uploadErrorMessage err),
         UploadEvent.toastError (uploadErrorMessage err)]

def countPosts (tr : List UploadEvent) : Nat :=
  (tr.filter (fun e =>
    match e with
    | UploadEvent.post => true
    | _ => false)).length

def toastErrorMsgs (tr : List UploadEvent) : List JsVal :=
  tr.filterMap (fun e =>
    match e with
    | UploadEvent.toastError m => some m
    | _ => none)

/-- C7 (amended): every failed upload produces exactly one POST and exactly
one error toast, whose message is `detail.message_it` when that is truthy,
else `detail` when that is truthy, else the fixed fallback string (a present
but falsy `message_it`, such as the empty string, is skipped). -/
theorem C7_handleUpload_failure_toast (f : JsFile) (err : JsVal) :
    countPosts (handleUpload (some f) (UploadOutcome.failure err)) = 1 ∧
    toastErrorMsgs (handleUpload (some f) (UploadOutcome.failure err))
      = [uploadErrorMessage err] ∧
    (truthy (messageItOf err) = true → uploadErrorMessage err = messageItOf err) ∧
    (truthy (messageItOf err) = false → truthy (detailOf err) = true →
      uploadErrorMessage err = detailOf err) ∧
    (truthy (messageItOf err) = false → truthy (detailOf err) = false →
      uploadErrorMessage err = JsVal.str "Errore durante l\x27analisi") := by
  refine ⟨rfl, rfl, ?_, ?_, ?_⟩
  · intro h
    simp [uploadErrorMessage, jsOrVal, h]
  · intro h1 h2
    simp [uploadErrorMessage, jsOrVal, h1, h2]
  · intro h1 h2
    simp [uploadErrorMessage, jsOrVal, h1, h2]

/-- Witness for C7: a failure whose `detail.message_it` is a non-empty
string is toasted with exactly that message. -/
theorem C7_handleUpload_failure_toast_witness :
    countPosts (handleUpload
      (some (JsFile.mk "perizia.pdf" "application/pdf" 9))
      (UploadOutcome.failure (JsVal.obj [("response", JsVal.obj [("data", JsVal.obj
        [("detail", JsVal.obj [("message_it", JsVal.str "Documento non valido")])])])]))) = 1 ∧
    uploadErrorMessage (JsVal.obj [("response", JsVal.obj [("data", JsVal.obj
        [("detail", JsVal.obj [("message_it", JsVal.str "Documento non valido")])])])])
      = messageItOf (JsVal.obj [("response", JsVal.obj [("data", JsVal.obj
        [("detail", JsVal.obj [("message_it", JsVal.str "Documento non valido")])])])]) :=
  ⟨(C7_handleUpload_failure_toast (JsFile.mk "perizia.pdf" "application/pdf" 9)
      (JsVal.obj [("response", JsVal.obj [("data", JsVal.obj
        [("detail", JsVal.obj [("message_it", JsVal.str "Documento non valido")])])])])).1,
   (C7_handleUpload_failure_toast (JsFile.mk "perizia.pdf" "application/pdf" 9)
      (JsVal.obj [("response", JsVal.obj [("data", JsVal.obj
        [("detail", JsVal.obj [("message_it", JsVal.str "Documento non valido")])])])])).2.2.1 rfl⟩

/-- C7 counterexample: with `detail.message_it` present but equal to the
empty string, the toast message is the `detail` object, not `message_it`,
refuting "message_it when present". -/
theorem C7_counterexample_empty_message_it :
    messageItOf (JsVal.obj [("response", JsVal.obj [("data", JsVal.obj
        [("detail", JsVal.obj [("message_it", JsVal.str "")])])])]) = JsVal.str "" ∧
    uploadErrorMessage (JsVal.obj [("response", JsVal.obj [("data", JsVal.obj
        [("detail", JsVal.obj [("message_it", JsVal.str "")])])])])
      = JsVal.obj [("message_it", JsVal.str "")] ∧
    JsVal.obj [("message_it", JsVal.str "")] ≠ JsVal.str "" := by
  refine ⟨rfl, rfl, ?_⟩
  intro h
  exact JsVal.noConfusion h

/-! ## Authentication flow (frontend/src/App.js, AuthCallback.js, AuthContext.js) -/

/-- What `ProtectedRoute` renders. -/
inductive RouteRender where
  | spinner
  | navigateTo (path : String)
  | children

/-- Shallow embedding of `ProtectedRoute`: spinner while loading, redirect
to the landing page when no user, otherwise the wrapped children. -/
def ProtectedRoute (loading : Bool) (user : Option JsVal) : RouteRender :=
  if loading then .spinner
  else
    match user with
    | none => .navigateTo "/"
    | some _ => .children

/-- Model of `hash.match(/session_id=([^&]+)/)`: scan left to right for the
literal `session_id=` followed by at least one non-`&` character; on a
failed capture the engine advances the start position by one, like the
backtracking regex does. -/
def sessionIdCapture : List Char → Option String
  | [] => none
  | c :: rest =>
    if ("session_id=".toList).isPrefixOf (c :: rest) then
      let cap := ((c :: rest).drop 11).takeWhile (fun ch => ch != '&')
      if cap.isEmpty then sessionIdCapture rest else some (String.mk cap)
    else sessionIdCapture rest

def matchSessionId (hash : String) : Option String := sessionIdCapture hash.toList

inductive CallbackResult where
  | navigateTo (path : String) (replaceHistory : Bool)

/-- Shallow embedding of the `processAuth` effect of `AuthCallback`:
`exchange` stands for the awaited `exchangeSession` call, whose failure is
an `Except.error`. -/
def AuthCallback (hash : String) (exchange : String → Except Unit JsVal) : CallbackResult :=
  match matchSessionId hash with
  | none => .navigateTo "/" true
  | some sessionId =>
    match exchange sessionId with
    | .ok _user => .navigateTo "/dashboard" true
    | .error _ => .navigateTo "/" true

/-- C8: every authentication failure lands on the landing page `/`:
`ProtectedRoute` redirects there once loading is done and the user is
`null`, and `AuthCallback` navigates there both when the URL fragment has no
`session_id` and when the session exchange throws. -/
theorem C8_auth_failures_land_on_root :
    (∀ (loading : Bool) (user : Option JsVal),
      loading = false → user = none →
      ProtectedRoute loading user = RouteRender.navigateTo "/") ∧
    (∀ (hash : String) (exchange : String → Except Unit JsVal),
      matchSessionId hash = none →
      AuthCallback hash exchange = CallbackResult.navigateTo "/" true) ∧
    (∀ (hash : String) (exchange : String → Except Unit JsVal) (sid : String),
      matchSessionId hash = some sid → exchange sid = Except.error () →
      AuthCallback hash exchange = CallbackResult.navigateTo "/" true) := by
  refine ⟨?_, ?_, ?_⟩
  · intro loading user hl hu
    subst hl; subst hu
    rfl
  · intro hash exchange h
    unfold AuthCallback
    simp [h]
  · intro hash exchange sid h he
    unfold AuthCallback
    simp [h, he]

/-- Witness for C8: each redirect-to-`/` case at a concrete input. -/
theorem C8_auth_failures_land_on_root_witness :
    ProtectedRoute false none = RouteRender.navigateTo "/" ∧
    AuthCallback "" (fun _ => Except.ok JsVal.null) = CallbackResult.navigateTo "/" true ∧
    AuthCallback "#session_id=abc" (fun _ => Except.error ()) = CallbackResult.navigateTo "/" true :=
  ⟨C8_auth_failures_land_on_root.1 false none rfl rfl,
   C8_auth_failures_land_on_root.2.1 "" (fun _ => Except.ok JsVal.null) rfl,
   C8_auth_failures_land_on_root.2.2 "#session_id=abc" (fun _ => Except.error ()) "abc" rfl rfl⟩

inductive AuthEvent where
  | postLogout
  | consoleError

/-- Shallow embedding of `logout` from `AuthContext.js`: the returned pair
is the new `user` state and the trace of effects; `finally` sets the user to
`null` on both outcomes. `prevUser` is the state before the call. -/
def logout (postResult : Except JsVal Unit) (prevUser : Option JsVal) :
    Option JsVal × List AuthEvent :=
  match postResult with
  | .ok _ => (none, [AuthEvent.postLogout])
  | .error _ => (none, [AuthEvent.postLogout, AuthEvent.consoleError])

/-- C9: `logout` clears the in-memory user to `null` on both the success and
the failure path of `POST /api/auth/logout`, regardless of the previous
user. -/
theorem C9_logout_clears_user (postResult : Except JsVal Unit) (prevUser : Option JsVal) :
    (logout postResult prevUser).1 = none := by
  cases postResult <;> rfl

/-! ## Top-level routing (frontend/src/App.js, `AppRouter`) -/

structure JsLocation where
  pathname : String
  search : String
  hash : String

/-- `String.prototype.includes`, kernel-computable on `List Char`. -/
def listContainsSub (needle : List Char) : List Char → Bool
  | [] => needle.isPrefixOf []
  | c :: rest => needle.isPrefixOf (c :: rest) || listContainsSub needle rest

def hasSessionParam (s : String) : Bool :=
  listContainsSub ("session_id=".toList) s.toList

inductive Page where
  | landing
  | dashboard
  | newAnalysis
  | analysisResult (analysisId : String)
  | forensics
  | assistant
  | history
  | billing
  | profile

inductive RouteTarget where
  | publicPage (p : Page)
  | protectedPage (p : Page)
  | redirectHome

/-- The `<Routes>` table of `AppRouter`, modelled on exact path segments
(the literal `/analysis/new` route is more specific than
`/analysis/:analysisId` and wins, as react-router ranks it). -/
def routeFor (path : String) : RouteTarget :=
  match (path.splitOn "/").filter (fun s => s != "") with
  | [] => .publicPage .landing
  | ["dashboard"] => .protectedPage .dashboard
  | ["analysis", "new"] => .protectedPage .newAnalysis
  | ["analysis", analysisId] => .protectedPage (.analysisResult analysisId)
  | ["forensics"] => .protectedPage .forensics
  | ["assistant"] => .protectedPage .assistant
  | ["history"] => .protectedPage .history
  | ["billing"] => .protectedPage .billing
  | ["profile"] => .protectedPage .profile
  | _ => .redirectHome

inductive AppRender where
  | authCallbackPage
  | routed (t : RouteTarget)

/-- Shallow embedding of `AppRouter`: any location whose hash or query
string contains `session_id=` renders `AuthCallback`, everything else goes
through the route table. -/
def AppRouter (location : JsLocation) : AppRender :=
  if hasSessionParam location.hash || hasSessionParam location.search then
    .authCallbackPage
  else
    .routed (routeFor location.pathname)

/-- C10: `AppRouter` renders `AuthCallback` exactly for locations whose hash
or query string contains the substring `session_id=`, regardless of the
path; all other locations go through the normal route table. -/
theorem C10_AppRouter_session_override (location : JsLocation) :
    (AppRouter location = AppRender.authCallbackPage ↔
      (hasSessionParam location.hash || hasSessionParam location.search) = true) ∧
    ((hasSessionParam location.hash || hasSessionParam location.search) = false →
      AppRouter location = AppRender.routed (routeFor location.pathname)) := by
  unfold AppRouter
  by_cases h : (hasSessionParam location.hash || hasSessionParam location.search) = true
  · simp [h]
  · rw [Bool.not_eq_true] at h
    simp [h]

/-- Witness for C10: a location with `session_id=` in the query renders the
auth callback even on a routed path; one without goes to its route. -/
theorem C10_AppRouter_session_override_witness :
    AppRouter (JsLocation.mk "/dashboard" "?session_id=xyz" "") = AppRender.authCallbackPage ∧
    AppRouter (JsLocation.mk "/dashboard" "" "")
      = AppRender.routed (routeFor "/dashboard") :=
  ⟨((C10_AppRouter_session_override (JsLocation.mk "/dashboard" "?session_id=xyz" "")).1).2 rfl,
   (C10_AppRouter_session_override (JsLocation.mk "/dashboard" "" "")).2 rfl⟩

end Nexodify
